import Mathlib

/-!
Shallow embedding of `JSONToCSV.py` (ART-Mining): text normalization
(`clean_text`), keyword reference detection (`find_linked_issues`), commit
aggregation inside `extract_data`, the record extraction over JSON-shaped
values, and the CSV / pickle output loops.  Strings are modelled as lists of
characters (`PyStr`), Python dynamic values as `JValue`, and code that can
raise as `Except`.
-/

/-- Python strings, modelled as lists of characters. -/
abbrev PyStr := List Char

/-- Conversion from a Lean string literal to the model of Python strings. -/
def pstr (s : String) : PyStr := s.data

/-- `clean_text` body: one `str.replace(old, new)` with one-character `old`
and `new` is a character map. -/
def replaceChar (a b : Char) (s : PyStr) : PyStr :=
  s.map (fun c => if c = a then b else c)

/-- `clean_text(text)` for a string argument:
`text.replace('\n', ' ').replace('\r', ' ')` (line 19). -/
def clean_text (s : PyStr) : PyStr :=
  replaceChar '\r' ' ' (replaceChar '\n' ' ' s)

/-- ASCII lower-casing; models how `re.IGNORECASE` compares characters for
the ASCII patterns appearing in the source. -/
def lowerA (c : Char) : Char :=
  if decide ('A' ≤ c) && decide (c ≤ 'Z') then Char.ofNat (c.toNat + 32) else c

/-- `\d` of Python regexes, restricted to ASCII digits. -/
def isDigitC (c : Char) : Bool := decide ('0' ≤ c) && decide (c ≤ '9')

/-- Python `\s` (whitespace) on the ASCII range; `\S` is its negation. -/
def pyIsSpace (c : Char) : Bool :=
  c == ' ' || c == '\t' || c == '\n' || c == '\r' || c == '\x0b' || c == '\x0c'

/-- Case-insensitive literal match: if `p` matches a prefix of `s` up to
ASCII case, return the rest of `s`. -/
def stripCI : PyStr → PyStr → Option PyStr
  | [], s => some s
  | _ :: _, [] => none
  | a :: p, c :: s => if lowerA a == lowerA c then stripCI p s else none

/-- First regex alternative `#\d+` of the group in `find_linked_issues`
(line 41): a hash sign followed by one or more digits (greedy). -/
def hashMatch : PyStr → Option (PyStr × PyStr)
  | '#' :: r =>
    let ds := r.takeWhile isDigitC
    if ds.isEmpty then none else some ('#' :: ds, r.drop ds.length)
  | _ => none

/-- The literal part of the URL alternative of the group. -/
def ghLit : PyStr := pstr "https://github.com/"

/-- The interior literal of the URL alternative. -/
def issuesLit : PyStr := pstr "/issues/"

/-- Is the first character of `s` an ASCII digit? -/
def headDigit (s : PyStr) : Bool :=
  match s.head? with
  | some c => isDigitC c
  | none => false

/-- Backtracking search for `\S+/issues/\d+` inside the non-space run
`run`: the greedy `\S+` means the largest length `l ≥ 1` such that
`/issues/` (case-insensitively) followed by a digit starts at offset `l`.
The second argument is the candidate length being tried, counting down. -/
def findSplit (run : PyStr) : Nat → Option Nat
  | 0 => none
  | n + 1 =>
    if (stripCI issuesLit (run.drop (n + 1))).isSome &&
        headDigit (run.drop (n + 1 + 8)) then
      some (n + 1)
    else findSplit run n

/-- Second regex alternative `https://github\.com/\S+/issues/\d+`:
the matched text (original characters of `s`) and the rest of `s`. -/
def urlMatch (s : PyStr) : Option (PyStr × PyStr) :=
  match stripCI ghLit s with
  | none => none
  | some r =>
    let run := r.takeWhile (fun c => !(pyIsSpace c))
    match findSplit run run.length with
    | none => none
    | some l =>
      let ds := (run.drop (l + 8)).takeWhile isDigitC
      let total := ghLit.length + l + 8 + ds.length
      some (s.take total, s.drop total)

/-- The group `(#\d+|https://github\.com/\S+/issues/\d+)`: regex alternation
tries the `#` alternative first. -/
def groupM (s : PyStr) : Option (PyStr × PyStr) :=
  match hashMatch s with
  | some res => some res
  | none => urlMatch s

/-- One attempted match of the pattern
`fr'\x7bkeyword\x7d (#\d+|https://github\.com/\S+/issues/\d+)'` at the head
of `s`: the keyword case-insensitively, a literal space, then the group.
Returns the group capture (what `re.findall` collects) and the rest of the
input after the whole match. -/
def matchAt (k : PyStr) (s : PyStr) : Option (PyStr × PyStr) :=
  match stripCI k s with
  | none => none
  | some (' ' :: r2) => groupM r2
  | some _ => none

/-- `re.findall(pattern, body_text, re.IGNORECASE)` for one keyword:
left-to-right scan collecting non-overlapping matches; on a match the scan
resumes after the match, otherwise it advances one character.  Every
successful match consumes at least one character, so fuel equal to the
length of the scanned text is enough. -/
def scanKw (k : PyStr) : Nat → PyStr → List PyStr
  | 0, _ => []
  | _ + 1, [] => []
  | fuel + 1, c :: rest =>
    match matchAt k (c :: rest) with
    | some (g, r) => g :: scanKw k fuel r
    | none => scanKw k fuel rest

/-- The keyword vocabulary of `find_linked_issues` (lines 31-36), in source
order. -/
def keywords_vocab : List PyStr :=
  [pstr "closes", pstr "fixes", pstr "resolves", pstr "in", pstr "solves",
   pstr "addresses", pstr "completes", pstr "connects", pstr "related to",
   pstr "reverts", pstr "implements", pstr "references", pstr "incorporates",
   pstr "updates", pstr "handles", pstr "patches", pstr "adds",
   pstr "modifies", pstr "enhances", pstr "improves", pstr "adjusts"]

/-- The loop of lines 40-46: for each keyword in vocabulary order, every
match appends the captured reference together with the keyword that
produced it. -/
def collectPairs (body : PyStr) : List PyStr → List (PyStr × PyStr)
  | [] => []
  | k :: ks =>
    ((scanKw k body.length body).map (fun m => (m, k))) ++ collectPairs body ks

/-- `find_linked_issues(body_text)` (lines 30-48): returns the parallel
lists `linked_issues` and `description_keywords`. -/
def find_linked_issues (body : PyStr) : List PyStr × List PyStr :=
  let pairs := collectPairs body keywords_vocab
  (pairs.map Prod.fst, pairs.map Prod.snd)

/-- Numeric value of an ASCII digit. -/
def dval (c : Char) : Nat := c.toNat - '0'.toNat

/-- `%Y` of `_strptime`: exactly four digits. -/
def pYear : PyStr → Option (Nat × PyStr)
  | a :: b :: c :: d :: r =>
    if isDigitC a && isDigitC b && isDigitC c && isDigitC d then
      some (((dval a * 10 + dval b) * 10 + dval c) * 10 + dval d, r)
    else none
  | _ => none

/-- `%m` of `_strptime`: the ordered alternatives `1[0-2]|0[1-9]|[1-9]`. -/
def pMon : PyStr → Option (Nat × PyStr)
  | c1 :: c2 :: r =>
    if c1 == '1' && (decide ('0' ≤ c2) && decide (c2 ≤ '2')) then
      some (10 + dval c2, r)
    else if c1 == '0' && (decide ('1' ≤ c2) && decide (c2 ≤ '9')) then
      some (dval c2, r)
    else if decide ('1' ≤ c1) && decide (c1 ≤ '9') then
      some (dval c1, c2 :: r)
    else none
  | [c1] => if decide ('1' ≤ c1) && decide (c1 ≤ '9') then some (dval c1, []) else none
  | [] => none

/-- `%d` of `_strptime`: `3[0-1]|[1-2]\d|0[1-9]|[1-9]| [1-9]`. -/
def pDay : PyStr → Option (Nat × PyStr)
  | c1 :: c2 :: r =>
    if c1 == '3' && (c2 == '0' || c2 == '1') then some (30 + dval c2, r)
    else if (c1 == '1' || c1 == '2') && isDigitC c2 then
      some (dval c1 * 10 + dval c2, r)
    else if c1 == '0' && (decide ('1' ≤ c2) && decide (c2 ≤ '9')) then
      some (dval c2, r)
    else if decide ('1' ≤ c1) && decide (c1 ≤ '9') then
      some (dval c1, c2 :: r)
    else if c1 == ' ' && (decide ('1' ≤ c2) && decide (c2 ≤ '9')) then
      some (dval c2, r)
    else none
  | [c1] => if decide ('1' ≤ c1) && decide (c1 ≤ '9') then some (dval c1, []) else none
  | [] => none

/-- `%H` of `_strptime`: `2[0-3]|[0-1]\d|\d`. -/
def pHour : PyStr → Option (Nat × PyStr)
  | c1 :: c2 :: r =>
    if c1 == '2' && (decide ('0' ≤ c2) && decide (c2 ≤ '3')) then
      some (20 + dval c2, r)
    else if (c1 == '0' || c1 == '1') && isDigitC c2 then
      some (dval c1 * 10 + dval c2, r)
    else if isDigitC c1 then some (dval c1, c2 :: r)
    else none
  | [c1] => if isDigitC c1 then some (dval c1, []) else none
  | [] => none

/-- `%M` of `_strptime`: `[0-5]\d|\d`. -/
def pMin : PyStr → Option (Nat × PyStr)
  | c1 :: c2 :: r =>
    if (decide ('0' ≤ c1) && decide (c1 ≤ '5')) && isDigitC c2 then
      some (dval c1 * 10 + dval c2, r)
    else if isDigitC c1 then some (dval c1, c2 :: r)
    else none
  | [c1] => if isDigitC c1 then some (dval c1, []) else none
  | [] => none

/-- `%S` of `_strptime`: `6[0-1]|[0-5]\d|\d`. -/
def pSec : PyStr → Option (Nat × PyStr)
  | c1 :: c2 :: r =>
    if c1 == '6' && (c2 == '0' || c2 == '1') then some (60 + dval c2, r)
    else if (decide ('0' ≤ c1) && decide (c1 ≤ '5')) && isDigitC c2 then
      some (dval c1 * 10 + dval c2, r)
    else if isDigitC c1 then some (dval c1, c2 :: r)
    else none
  | [c1] => if isDigitC c1 then some (dval c1, []) else none
  | [] => none

/-- A literal character of the format string; `_strptime` compiles its regex
with `re.IGNORECASE`, so letters match case-insensitively. -/
def expectCI (c : Char) : PyStr → Option PyStr
  | x :: r => if lowerA x == lowerA c then some r else none
  | [] => none

/-- Gregorian leap year, as `datetime` uses it. -/
def isLeap (y : Nat) : Bool :=
  y % 4 == 0 && (y % 100 != 0 || y % 400 == 0)

/-- Days in a month, as `datetime` validates the day field. -/
def daysInMonth (y m : Nat) : Nat :=
  if m == 2 then (if isLeap y then 29 else 28)
  else if m == 4 || m == 6 || m == 9 || m == 11 then 30
  else 31

/-- Order-preserving encoding of a `datetime` as a natural number; the
factors strictly bound each field, so comparison of encodings is the
lexicographic comparison of `(Y, m, d, H, M, S)` that Python uses to
compare `datetime` objects. -/
def encodeDT (y mo d h mi s : Nat) : Nat :=
  ((((y * 13 + mo) * 32 + d) * 24 + h) * 60 + mi) * 60 + s

/-- `datetime.strptime(commit_date, "%Y-%m-%dT%H:%M:%SZ")` (line 110):
`some` encoded instant on success, `none` when a `ValueError` is raised
(pattern mismatch, unconverted trailing data, year 0, day out of range for
the month, or second 60/61). -/
def parseDate (s : PyStr) : Option Nat := do
  let (y, r1) ← pYear s
  let r2 ← expectCI '-' r1
  let (mo, r3) ← pMon r2
  let r4 ← expectCI '-' r3
  let (d, r5) ← pDay r4
  let r6 ← expectCI 'T' r5
  let (h, r7) ← pHour r6
  let r8 ← expectCI ':' r7
  let (mi, r9) ← pMin r8
  let r10 ← expectCI ':' r9
  let (sec, r11) ← pSec r10
  let r12 ← expectCI 'Z' r11
  match r12 with
  | [] =>
    if 1 ≤ y && d ≤ daysInMonth y mo && sec ≤ 59 then
      some (encodeDT y mo d h mi sec)
    else none
  | _ :: _ => none

/-- One commit entry as the aggregation loop of `extract_data` reads it:
its `date`, `sha` and `author_name` strings and its `files.file_list`. -/
structure CommitE where
  date : PyStr
  sha : PyStr
  author : PyStr
  files : List PyStr

/-- The `(commit_date_obj, sha, author_name)` tuples of line 111. -/
abbrev CTuple := Nat × PyStr × PyStr

/-- One iteration of the commit loop (lines 106-116) over the state
`(commits, files_changed)`: an empty date skips parsing but keeps the
files; a date that parses appends the tuple and keeps the files; a
non-empty date that fails to parse hits `continue`, which also skips the
file collection. -/
def commitStep (st : List CTuple × List PyStr) (c : CommitE) :
    List CTuple × List PyStr :=
  if c.date.isEmpty then (st.1, st.2 ++ c.files)
  else
    match parseDate c.date with
    | some dt => (st.1 ++ [(dt, c.sha, c.author)], st.2 ++ c.files)
    | none => st

/-- The whole commit loop, threading the state over the commit list. -/
def commitFold (cs : List CommitE) : List CTuple × List PyStr :=
  cs.foldl commitStep ([], [])

/-- The `commits` tuple list after the loop, in input iteration order. -/
def parsed_commits (cs : List CommitE) : List CTuple := (commitFold cs).1

/-- The `files_changed` union after the loop. -/
def files_changed_of (cs : List CommitE) : List PyStr := (commitFold cs).2

/-- Stable insertion into a descending-by-date list: the new element goes
before the first element whose date is not larger, matching the behavior
of `list.sort(key=lambda x: x[0], reverse=True)`, whose output is the
unique stable descending reordering. -/
def insertD (x : CTuple) : List CTuple → List CTuple
  | [] => [x]
  | y :: ys => if x.1 < y.1 then y :: insertD x ys else x :: y :: ys

/-- Stable descending sort by date (line 119). -/
def sortD : List CTuple → List CTuple
  | [] => []
  | x :: xs => insertD x (sortD xs)

/-- The result of the commit aggregation inside `extract_data`
(lines 101-127). -/
structure AggR where
  sorted_commits : List CTuple
  files_changed : List PyStr

/-- Lines 105-119 as a function of the commit list. -/
def aggregateCommits (cs : List CommitE) : AggR :=
  { sorted_commits := sortD (parsed_commits cs),
    files_changed := files_changed_of cs }

/-- `sorted_commit_hashes` (line 120). -/
def commit_hashes_of (a : AggR) : List PyStr :=
  a.sorted_commits.map (fun t => t.2.1)

/-- `newest_commit_hash` (line 121). -/
def newest_hash_of (a : AggR) : PyStr := (commit_hashes_of a).headD []

/-- `data["author_name"]` (lines 126-127): present only when the tuple
list is non-empty, and then the author of the first (newest) sorted tuple. -/
def newest_author_of (a : AggR) : Option PyStr :=
  a.sorted_commits.head?.map (fun t => t.2.2)

/-- A Python/JSON dynamic value as the script sees it after `json.load`. -/
inductive JValue where
  | null : JValue
  | str (s : PyStr) : JValue
  | bool (b : Bool) : JValue
  | num (n : Int) : JValue
  | arr (l : List JValue) : JValue
  | obj (kvs : List (PyStr × JValue)) : JValue

/-- Python truthiness of a value. -/
def pyTruthy : JValue → Bool
  | .null => false
  | .str s => !s.isEmpty
  | .bool b => b
  | .num n => n != 0
  | .arr l => !l.isEmpty
  | .obj kvs => !kvs.isEmpty

/-- First-occurrence lookup in an object's key/value list. -/
def olookup (kvs : List (PyStr × JValue)) (k : PyStr) : Option JValue :=
  match kvs with
  | [] => none
  | (k1, v) :: t => if k1 = k then some v else olookup t k

/-- `value.get(key, default)`: raises `AttributeError` unless the value is
a mapping; a key that is present wins even when its value is `None`. -/
def dictGet (v : JValue) (k : PyStr) (dflt : JValue) : Except PyStr JValue :=
  match v with
  | .obj kvs => pure ((olookup kvs k).getD dflt)
  | _ => throw (pstr "AttributeError: get")

/-- `value.get(key)` with the implicit `None` default. -/
def dictGetN (v : JValue) (k : PyStr) : Except PyStr JValue :=
  dictGet v k .null

/-- `value.values()`: the values of a mapping in iteration order; raises
unless the value is a mapping. -/
def jvaluesOf (v : JValue) : Except PyStr (List JValue) :=
  match v with
  | .obj kvs => pure (kvs.map (fun p => p.2))
  | _ => throw (pstr "AttributeError: values")

/-- `clean_text(x)` over a dynamic value (lines 15-19): `None` becomes the
empty string, a string is cleaned, anything else has no `.replace` and
raises. -/
def cleanTextJ (v : JValue) : Except PyStr PyStr :=
  match v with
  | .null => pure []
  | .str s => pure (clean_text s)
  | _ => throw (pstr "AttributeError: replace")

/-- The commit `date` as `strptime` receives it: a string is taken as is, a
falsy non-string (such as an absent / `None` date) behaves like the empty
string (parsing is skipped, files kept), and a truthy non-string makes
`strptime` raise a `TypeError`, which the `except ValueError` does not
catch. -/
def dateStrOf (v : JValue) : Except PyStr PyStr :=
  match v with
  | .str s => pure s
  | v => if pyTruthy v then throw (pstr "TypeError: strptime") else pure []

/-- A value required to be a string so that a later `" | ".join` does not
raise a `TypeError`. -/
def asStr (v : JValue) : Except PyStr PyStr :=
  match v with
  | .str s => pure s
  | _ => throw (pstr "TypeError: join")

/-- A string-or-null value (used for the commit author). -/
def asStrN (v : JValue) : Except PyStr PyStr :=
  match v with
  | .str s => pure s
  | .null => pure []
  | _ => throw (pstr "TypeError: str")

/-- A list of strings (the `file_list` of a commit). -/
def asStrList (v : JValue) : Except PyStr (List PyStr) :=
  match v with
  | .arr l => l.mapM asStr
  | _ => throw (pstr "TypeError: extend")

/-- Reading one commit mapping of the loop of lines 106-116 into a
`CommitE`: `sha` and `author_name` are only consulted when the tuple is
actually built, that is when the date is non-empty and parses. -/
def commitOfJ (c : JValue) : Except PyStr CommitE := do
  let dateJ ← dictGet c (pstr "date") (.str [])
  let date ← dateStrOf dateJ
  let hasTuple := !date.isEmpty && (parseDate date).isSome
  let sha ← if hasTuple then do asStr (← dictGet c (pstr "sha") (.str []))
            else pure []
  let author ← if hasTuple then do
      asStrN (← dictGet c (pstr "author_name") (.str []))
    else pure []
  let filesJ ← dictGet c (pstr "files") (.obj [])
  let files ← if pyTruthy filesJ then do
      asStrList (← dictGet filesJ (pstr "file_list") (.arr []))
    else pure []
  pure { date := date, sha := sha, author := author, files := files }

/-- The comment collection of lines 87-93: when `pr.get("comments")` is
truthy, the cleaned body of every comment value, in iteration order. -/
def commentsOf (pr : JValue) : Except PyStr (List PyStr) := do
  let cJ ← dictGetN pr (pstr "comments")
  if pyTruthy cJ then do
    let vals ← jvaluesOf cJ
    vals.mapM (fun cm => do cleanTextJ (← dictGet cm (pstr "body") (.str [])))
  else pure []

/-- The commit collection of lines 105-116: when `pr.get("commits")` is
truthy, every commit value read into a `CommitE`, in iteration order. -/
def commitsOf (pr : JValue) : Except PyStr (List CommitE) := do
  let cJ ← dictGetN pr (pstr "commits")
  if pyTruthy cJ then do
    let vals ← jvaluesOf cJ
    vals.mapM commitOfJ
  else pure []

/-- `" | ".join(xs)`. -/
def joinBar : List PyStr → PyStr
  | [] => []
  | [x] => x
  | x :: y :: xs => x ++ [' ', '|', ' '] ++ joinBar (y :: xs)

/-- Helper for `s.split(" | ")`: the first chunk and the remaining chunks
of the left-to-right non-overlapping split on the three-character
separator. -/
def splitBarGo : PyStr → PyStr × List PyStr
  | [] => ([], [])
  | ' ' :: '|' :: ' ' :: rest =>
    let r := splitBarGo rest
    ([], r.1 :: r.2)
  | c :: rest =>
    let r := splitBarGo rest
    (c :: r.1, r.2)

/-- `s.split(" | ")`: the empty string yields `[""]`, and the result is
never the empty list. -/
def splitBar (s : PyStr) : List PyStr :=
  (splitBarGo s).1 :: (splitBarGo s).2

/-- The `data` dictionary built by `extract_data` (lines 65-129), with one
field per key; `author_name` is optional because the key is only inserted
when the sorted tuple list is non-empty. -/
structure RowData where
  issue : PyStr
  pull_request : JValue
  issue_text : PyStr
  issue_description : PyStr
  pr_text : PyStr
  pr_description : PyStr
  created_at : PyStr
  closed_at : PyStr
  userlogin : PyStr
  comments : PyStr
  files_changed : PyStr
  commit_hashes : PyStr
  newest_commit_hash : PyStr
  author_name : Option PyStr

/-- `extract_data(pr)` (lines 61-129) over a dynamic value; any shape that
would make the Python code raise turns into an `Except.error`, which the
per-record `try`/`except` of the output loops catches. -/
def extract_data (pr : JValue) : Except PyStr RowData := do
  let bodyJ ← dictGet pr (pstr "body") (.str [])
  let body_text ← cleanTextJ bodyJ
  let (linked_issues, description_keywords) := find_linked_issues body_text
  let titleJ ← dictGet pr (pstr "title") (.str [])
  let title ← cleanTextJ titleJ
  let isPr ← dictGet pr (pstr "is_pr") (.str [])
  let createdJ ← dictGet pr (pstr "created_at") (.str [])
  let created ← cleanTextJ createdJ
  let closedJ ← dictGet pr (pstr "closed_at") (.str [])
  let closed ← cleanTextJ closedJ
  let userJ ← dictGet pr (pstr "userlogin") (.str [])
  let user ← cleanTextJ userJ
  let cmts ← commentsOf pr
  let cs ← commitsOf pr
  let agg := aggregateCommits cs
  pure {
    issue := title,
    pull_request := isPr,
    issue_text := joinBar linked_issues,
    issue_description := joinBar description_keywords,
    pr_text := title,
    pr_description := body_text,
    created_at := created,
    closed_at := closed,
    userlogin := user,
    comments := joinBar cmts,
    files_changed := joinBar agg.files_changed,
    commit_hashes := joinBar (commit_hashes_of agg),
    newest_commit_hash := newest_hash_of agg,
    author_name := newest_author_of agg }

/-- One cell of an output row: the row index, a string, a list of strings
(only in the pickle rows), or a value copied verbatim (`is_pr`). -/
inductive Cell where
  | nat (n : Nat) : Cell
  | str (s : PyStr) : Cell
  | strs (l : List PyStr) : Cell
  | raw (v : JValue) : Cell

/-- The CSV data row of line 242: `[idx, pr_id]` followed by
`row_data.get(col, "")` for the header columns from `"Pull Request"` on
(the `"issue"` column of the header is skipped by `header[2:]`, so the
cleaned title is never written to that column). -/
def csvRow (idx : Nat) (id : PyStr) (rd : RowData) : List Cell :=
  [.nat idx, .str id, .raw rd.pull_request, .str rd.issue_text,
   .str rd.issue_description, .str rd.pr_text, .str rd.pr_description,
   .str rd.created_at, .str rd.closed_at, .str rd.userlogin,
   .str (rd.author_name.getD []), .str rd.comments, .str rd.files_changed,
   .str rd.commit_hashes, .str rd.newest_commit_hash]

/-- The `formatted_data` entry of `convert_to_pickle` (lines 153-169): the
same positions as the CSV row, with the comments, files and commit-hash
strings split back on `" | "`. -/
def pickleRow (idx : Nat) (id : PyStr) (rd : RowData) : List Cell :=
  [.nat idx, .str id, .raw rd.pull_request, .str rd.issue_text,
   .str rd.issue_description, .str rd.pr_text, .str rd.pr_description,
   .str rd.created_at, .str rd.closed_at, .str rd.userlogin,
   .str (rd.author_name.getD []), .strs (splitBar rd.comments),
   .strs (splitBar rd.files_changed), .strs (splitBar rd.commit_hashes),
   .str rd.newest_commit_hash]

/-- The CSV writing loop of lines 238-246 from position `idx`: a record
whose extraction succeeds contributes its row; a record whose extraction
raises contributes a printed report carrying its identifier, and the loop
continues; the running index advances for every record. -/
def csvLoopGo : Nat → List (PyStr × JValue) → List (List Cell) × List PyStr
  | _, [] => ([], [])
  | idx, (id, pr) :: rest =>
    let res := csvLoopGo (idx + 1) rest
    match extract_data pr with
    | .ok rd => (csvRow idx id rd :: res.1, res.2)
    | .error _ => (res.1, id :: res.2)

/-- The whole CSV loop, with `enumerate(..., start=1)`. -/
def csvLoop (records : List (PyStr × JValue)) :
    List (List Cell) × List PyStr :=
  csvLoopGo 1 records

/-- The loop of `convert_to_pickle` (lines 147-175) from position `idx`:
like the CSV loop but producing the pickle rows. -/
def pickleLoopGo : Nat → List (PyStr × JValue) → List (List Cell) × List PyStr
  | _, [] => ([], [])
  | idx, (id, pr) :: rest =>
    let res := pickleLoopGo (idx + 1) rest
    match extract_data pr with
    | .ok rd => (pickleRow idx id rd :: res.1, res.2)
    | .error _ => (res.1, id :: res.2)

/-- `convert_to_pickle(data, ...)` (lines 142-186), up to the serialized
list it builds and the error reports it prints. -/
def convert_to_pickle (records : List (PyStr × JValue)) :
    List (List Cell) × List PyStr :=
  pickleLoopGo 1 records

/-- Does `extract_data` raise for this record? -/
def extract_fails (r : PyStr × JValue) : Bool :=
  match extract_data r.2 with
  | .ok _ => false
  | .error _ => true

/-- Does the commit contribute anything to the aggregation?  Exactly the
commits with an empty date or a date that parses; a commit with a
non-empty unparseable date hits `continue` and contributes nothing. -/
def commit_kept (c : CommitE) : Bool :=
  c.date.isEmpty || (parseDate c.date).isSome

/-- Turning a `.str` cell into the list obtained by splitting on `" | "`. -/
def splitCell : Cell → Cell
  | .str s => .strs (splitBar s)
  | c => c

/-- Modelled from the spec: the aggregate writer's entry is the positional
tabular row with the comments / files-changed / commit-hashes positions
(indices 11, 12, 13 of the row) holding the list obtained by splitting the
joined string on `" | "`.  The first argument is the index of the head
cell of the remaining row. -/
def spec_blob_of_row : Nat → List Cell → List Cell
  | _, [] => []
  | j, c :: t =>
    (if j == 11 || j == 12 || j == 13 then splitCell c else c) ::
      spec_blob_of_row (j + 1) t

/-- The body of the worked reference-detection scenario. -/
def c2body : PyStr :=
  pstr "fixes #12 and closes https://github.com/o/r/issues/34"

/-- A body whose reference is matched under two overlapping keywords. -/
def c8body : PyStr := pstr "resolves #3"

/-- A body with one detected reference, used to exercise the pairing
invariant at index 0. -/
def c6body : PyStr := pstr "closes #1"

/-- The three commits of the worked aggregation scenario: January, March,
and an empty timestamp. -/
def csC4 : List CommitE :=
  [{ date := pstr "2024-01-01T00:00:00Z", sha := pstr "h1",
     author := pstr "a1", files := [pstr "f1"] },
   { date := pstr "2024-03-01T00:00:00Z", sha := pstr "h2",
     author := pstr "a2", files := [pstr "f2"] },
   { date := [], sha := pstr "h3", author := pstr "a3",
     files := [pstr "f3"] }]

/-- A commit with a non-empty timestamp that does not parse, carrying one
changed file. -/
def cBad : CommitE :=
  { date := pstr "bad", sha := pstr "s", author := pstr "a",
    files := [pstr "a.txt"] }

/-- Three records of which exactly the middle one makes `extract_data`
raise (an integer has no `.get`). -/
def recs3 : List (PyStr × JValue) :=
  [(pstr "1", .obj []), (pstr "2", .num 0), (pstr "3", .obj [])]

/-- A flat record whose joined comments / files / commit-hashes strings
are all empty. -/
def rdX : RowData :=
  { issue := [], pull_request := .str [], issue_text := [],
    issue_description := [], pr_text := [], pr_description := [],
    created_at := [], closed_at := [], userlogin := [], comments := [],
    files_changed := [], commit_hashes := [], newest_commit_hash := [],
    author_name := none }

theorem splitBar_length_pos (s : PyStr) : 0 < (splitBar s).length := by
  simp [splitBar]

theorem collectPairs_mem (body : PyStr) (ks : List PyStr) :
    ∀ p : PyStr × PyStr, p ∈ collectPairs body ks →
      p.1 ∈ scanKw p.2 body.length body := by
  induction ks with
  | nil => intro p hp; simp [collectPairs] at hp
  | cons k t ih =>
    intro p hp
    simp only [collectPairs, List.mem_append, List.mem_map] at hp
    rcases hp with ⟨m, hm, rfl⟩ | hp
    · simpa using hm
    · exact ih p hp

theorem collectPairs_nil_of (body : PyStr) (ks : List PyStr)
    (h : ∀ k, k ∈ ks → scanKw k body.length body = []) :
    collectPairs body ks = [] := by
  induction ks with
  | nil => rfl
  | cons k t ih =>
    simp [collectPairs, h k (by simp),
      ih (fun k2 hk2 => h k2 (by simp [hk2]))]

theorem getD_pair (P : List (PyStr × PyStr)) :
    ∀ i : Nat, i < P.length →
      ∃ p, p ∈ P ∧ (P.map Prod.fst).getD i [] = p.1 ∧
        (P.map Prod.snd).getD i [] = p.2 := by
  induction P with
  | nil => intro i hi; simp at hi
  | cons q t ih =>
    intro i hi
    cases i with
    | zero => exact ⟨q, by simp, by simp, by simp⟩
    | succ n =>
      obtain ⟨p, hp, h1, h2⟩ := ih n (by simpa using hi)
      exact ⟨p, by simp [hp], by simpa using h1, by simpa using h2⟩

theorem insertD_filter (x : CTuple) (d : Nat) :
    ∀ m : List CTuple, (insertD x m).filter (fun t => t.1 == d) =
      (if x.1 == d then [x] else []) ++ m.filter (fun t => t.1 == d) := by
  intro m
  induction m with
  | nil => by_cases hx : x.1 = d <;> simp [insertD, List.filter_cons, hx]
  | cons y ys ih =>
    by_cases hlt : x.1 < y.1
    · simp only [insertD, if_pos hlt, List.filter_cons]
      by_cases hy : (y.1 == d) = true
      · have hyd : y.1 = d := by simpa using hy
        have hxd : ¬ (x.1 = d) := by omega
        simp [List.filter_cons, hy, ih, hxd]
      · simp [List.filter_cons, hy, ih]
    · simp only [insertD, if_neg hlt, List.filter_cons]
      by_cases hx : (x.1 == d) = true <;> simp [hx]

theorem sortD_filter (l : List CTuple) (d : Nat) :
    (sortD l).filter (fun t => t.1 == d) = l.filter (fun t => t.1 == d) := by
  induction l with
  | nil => rfl
  | cons x xs ih =>
    simp only [sortD]
    rw [insertD_filter x d (sortD xs), ih, List.filter_cons]
    by_cases hx : (x.1 == d) = true <;> simp [hx]

theorem commitStep_dropped (st : List CTuple × List PyStr) (c : CommitE)
    (h : commit_kept c = false) : commitStep st c = st := by
  have h1 : c.date.isEmpty = false := by
    cases hd : c.date.isEmpty
    · rfl
    · simp [commit_kept, hd] at h
  have h2 : parseDate c.date = none := by
    cases hp : parseDate c.date with
    | none => rfl
    | some v => simp [commit_kept, hp, h1] at h
  simp [commitStep, h1, h2]

theorem commitFold_kept (cs : List CommitE) :
    ∀ st : List CTuple × List PyStr,
      cs.foldl commitStep st = (cs.filter commit_kept).foldl commitStep st := by
  induction cs with
  | nil => intro st; rfl
  | cons c t ih =>
    intro st
    cases hk : commit_kept c
    · simp [List.filter_cons, hk, List.foldl_cons,
        commitStep_dropped st c hk, ih]
    · simp [List.filter_cons, hk, List.foldl_cons, ih]

theorem row_transform (idx : Nat) (id : PyStr) (rd : RowData) :
    pickleRow idx id rd = spec_blob_of_row 0 (csvRow idx id rd) := rfl

theorem loops_spec (recs : List (PyStr × JValue)) :
    ∀ idx : Nat,
      (csvLoopGo idx recs).1.length + (recs.filter extract_fails).length
          = recs.length ∧
      (csvLoopGo idx recs).2 = (recs.filter extract_fails).map (fun r => r.1) ∧
      (pickleLoopGo idx recs).1
          = (csvLoopGo idx recs).1.map (spec_blob_of_row 0) ∧
      (pickleLoopGo idx recs).2 = (csvLoopGo idx recs).2 := by
  induction recs with
  | nil => intro idx; exact ⟨rfl, rfl, rfl, rfl⟩
  | cons r t ih =>
    intro idx
    obtain ⟨id, pr⟩ := r
    obtain ⟨ih1, ih2, ih3, ih4⟩ := ih (idx + 1)
    cases he : extract_data pr with
    | ok rd =>
      have hf : extract_fails (id, pr) = false := by simp [extract_fails, he]
      refine ⟨?_, ?_, ?_, ?_⟩
      all_goals simp [csvLoopGo, pickleLoopGo, he, List.filter_cons, hf,
        ih1, ih2, ih3, ih4, row_transform]
      all_goals omega
    | error e =>
      have hf : extract_fails (id, pr) = true := by simp [extract_fails, he]
      refine ⟨?_, ?_, ?_, ?_⟩
      all_goals simp [csvLoopGo, pickleLoopGo, he, List.filter_cons, hf,
        ih1, ih2, ih3, ih4]
      all_goals omega

theorem getD_mem_strs (L : List Cell) :
    ∀ (j : Nat) (l : List PyStr),
      L.getD j (.str []) = Cell.strs l → Cell.strs l ∈ L := by
  induction L with
  | nil =>
    intro j l h
    exact absurd h (by simp [List.getD])
  | cons a t ih =>
    intro j l h
    cases j with
    | zero =>
      have ha : a = Cell.strs l := h
      rw [← ha]
      exact List.mem_cons_self a t
    | succ n => exact List.mem_cons_of_mem a (ih n l h)

theorem pickleRow_cells (idx : Nat) (id : PyStr) (rd : RowData)
    (l : List PyStr) (hm : Cell.strs l ∈ pickleRow idx id rd) :
    0 < l.length := by
  simp only [pickleRow, List.mem_cons, List.not_mem_nil, or_false] at hm
  rcases hm with h|h|h|h|h|h|h|h|h|h|h|h|h|h|h <;>
    first
      | (simp only [Cell.strs.injEq] at h; subst h; exact splitBar_length_pos _)
      | exact absurd h (by simp)

/-- C1 (amended): a commit whose timestamp is non-empty and unparseable
contributes nothing to the aggregation: removing all such commits leaves
the ordered commit tuples and the unioned file list unchanged, so neither
its hash nor its files appear in the output. -/
theorem c1_unparseable_commit_contributes_nothing (cs : List CommitE) :
    aggregateCommits cs = aggregateCommits (cs.filter commit_kept) := by
  simp only [aggregateCommits, parsed_commits, files_changed_of, commitFold]
  rw [commitFold_kept cs ([], [])]

/-- C1 (counterexample): a commit with the non-empty unparseable timestamp
`"bad"` and file list `["a.txt"]` is excluded from the hash list, but its
files are NOT appended to the union, refuting the claim. -/
theorem c1_files_not_unioned_cex :
    (pstr "bad").isEmpty = false ∧ parseDate (pstr "bad") = none ∧
    cBad.files = [pstr "a.txt"] ∧ files_changed_of [cBad] = [] ∧
    commit_hashes_of (aggregateCommits [cBad]) = [] ∧
    decide (files_changed_of [cBad] = [pstr "a.txt"]) = false := by decide

/-- C2 (counterexample): on the worked body the code does not return
references `["#12", URL]` with keywords `["fixes", "closes"]`. -/
theorem c2_scenario_cex :
    decide (find_linked_issues c2body =
      ([pstr "#12", pstr "https://github.com/o/r/issues/34"],
       [pstr "fixes", pstr "closes"])) = false := by decide

/-- C2 (amended): the matches come out in keyword-vocabulary order
("closes" before "fixes"), giving references `[URL, "#12"]` and keywords
`["closes", "fixes"]`. -/
theorem c2_scenario_vocab_order :
    find_linked_issues c2body =
      ([pstr "https://github.com/o/r/issues/34", pstr "#12"],
       [pstr "closes", pstr "fixes"]) := by decide

/-- C3: when exactly one record makes `extract_data` raise, both output
loops emit one row per remaining record — N-1 rows in total — and each
prints exactly the failing record's identifier as its skip report, the
records after the failure still being processed. -/
theorem c3_one_failing_record (records : List (PyStr × JValue))
    (h : (records.filter extract_fails).length = 1) :
    (csvLoop records).1.length = records.length - 1 ∧
    (csvLoop records).2 = (records.filter extract_fails).map (fun r => r.1) ∧
    (convert_to_pickle records).1.length = records.length - 1 ∧
    (convert_to_pickle records).2
        = (records.filter extract_fails).map (fun r => r.1) := by
  obtain ⟨h1, h2, h3, h4⟩ := loops_spec records 1
  have h1x : (csvLoop records).1.length
      + (records.filter extract_fails).length = records.length := h1
  have h5 : (convert_to_pickle records).1.length = (csvLoop records).1.length := by
    show (pickleLoopGo 1 records).1.length = (csvLoopGo 1 records).1.length
    rw [h3]
    simp
  refine ⟨by omega, h2, by omega, ?_⟩
  show (pickleLoopGo 1 records).2 = _
  rw [h4]
  exact h2

/-- C3 (witness): three records of which exactly the middle one raises:
two rows come out and the single report names record "2". -/
theorem c3_one_failing_record_witness :
    (recs3.filter extract_fails).length = 1 ∧
    (csvLoop recs3).1.length = 2 ∧ (csvLoop recs3).2 = [pstr "2"] ∧
    (convert_to_pickle recs3).1.length = 2 := by
  refine ⟨by decide, ?_, ?_, ?_⟩
  · exact (c3_one_failing_record recs3 (by decide)).1
  · exact ((c3_one_failing_record recs3 (by decide)).2.1).trans (by decide)
  · exact (c3_one_failing_record recs3 (by decide)).2.2.1

/-- C4: on the January / March / empty-timestamp commits the hash list is
[March, January] (the empty-timestamp commit's hash "h3" is in neither
position), the newest hash is the March one, and the file union keeps the
empty-timestamp commit's file. -/
theorem c4_commit_ordering_scenario :
    commit_hashes_of (aggregateCommits csC4) = [pstr "h2", pstr "h1"] ∧
    newest_hash_of (aggregateCommits csC4) = pstr "h2" ∧
    files_changed_of csC4 = [pstr "f1", pstr "f2", pstr "f3"] ∧
    decide (pstr "h3" ∈ commit_hashes_of (aggregateCommits csC4)) = false := by
  decide

/-- C5: `clean_text` maps each newline and carriage return to one space
and leaves everything else unchanged, so the length is preserved, neither
character survives, and `None` maps to the empty string. -/
theorem c5_clean_text_spec (s : PyStr) :
    clean_text s = s.map (fun c => if c = '\n' ∨ c = '\r' then ' ' else c) ∧
    (clean_text s).length = s.length ∧
    (clean_text s).any (fun c => c == '\n' || c == '\r') = false ∧
    cleanTextJ JValue.null = Except.ok [] := by
  have hpt : ∀ c : Char,
      (if (if c = '\n' then ' ' else c) = '\r' then ' '
       else (if c = '\n' then ' ' else c)) =
        if c = '\n' ∨ c = '\r' then ' ' else c := by
    intro c
    by_cases h1 : c = '\n'
    · subst h1; decide
    · by_cases h2 : c = '\r'
      · subst h2; decide
      · simp [h1, h2]
  have hmap : clean_text s
      = s.map (fun c => if c = '\n' ∨ c = '\r' then ' ' else c) := by
    simp only [clean_text, replaceChar, List.map_map]
    exact List.map_congr_left (fun c _ => hpt c)
  refine ⟨hmap, by rw [hmap]; simp, ?_, rfl⟩
  rw [hmap, List.any_map, List.any_eq_false]
  intro x hx
  by_cases h : x = '\n' ∨ x = '\r'
  · simp only [Function.comp, h, if_pos]
    decide
  · push_neg at h
    simp [Function.comp, h.1, h.2]

/-- C6: the two lists of `find_linked_issues` have equal length, the i-th
keyword is the one whose scan produced the i-th reference, and a body on
which every keyword scan is empty yields two empty lists. -/
theorem c6_parallel_invariant (body : PyStr) :
    (find_linked_issues body).1.length = (find_linked_issues body).2.length ∧
    (∀ i, i < (find_linked_issues body).1.length →
      (find_linked_issues body).1.getD i [] ∈
        scanKw ((find_linked_issues body).2.getD i []) body.length body) ∧
    ((∀ k, k ∈ keywords_vocab → scanKw k body.length body = []) →
      find_linked_issues body = ([], [])) := by
  refine ⟨by simp [find_linked_issues], ?_, ?_⟩
  · intro i hi
    simp only [find_linked_issues] at hi ⊢
    have hi2 : i < (collectPairs body keywords_vocab).length := by
      simpa using hi
    obtain ⟨p, hp, h1, h2⟩ := getD_pair (collectPairs body keywords_vocab) i hi2
    rw [h1, h2]
    exact collectPairs_mem body keywords_vocab p hp
  · intro h
    simp [find_linked_issues, collectPairs_nil_of body keywords_vocab h]

/-- C6 (witness): at index 0 of the body "closes #1" the pairing holds,
and the matchless body "hello" yields two empty lists. -/
theorem c6_parallel_invariant_witness :
    (find_linked_issues c6body).1.getD 0 [] ∈
      scanKw ((find_linked_issues c6body).2.getD 0 []) c6body.length c6body ∧
    find_linked_issues (pstr "hello") = ([], []) :=
  ⟨(c6_parallel_invariant c6body).2.1 0 (by decide),
   (c6_parallel_invariant (pstr "hello")).2.2 (by decide)⟩

/-- C7: the descending sort of the commit tuples is stable — for every
date, the tuples carrying that date appear in the sorted output in
exactly the order they had in the input iteration. -/
theorem c7_sort_stability (cs : List CommitE) (d : Nat) :
    (aggregateCommits cs).sorted_commits.filter (fun t => t.1 == d)
      = (parsed_commits cs).filter (fun t => t.1 == d) :=
  sortD_filter (parsed_commits cs) d

/-- C8: on the body "resolves #3" the same literal reference "#3" is
recorded twice, under the two distinct keywords "resolves" and "solves";
nothing is deduplicated. -/
theorem c8_duplicate_reference :
    find_linked_issues c8body
      = ([pstr "#3", pstr "#3"], [pstr "resolves", pstr "solves"]) ∧
    (find_linked_issues c8body).1.getD 0 []
      = (find_linked_issues c8body).1.getD 1 [] ∧
    decide ((find_linked_issues c8body).2.getD 0 []
      = (find_linked_issues c8body).2.getD 1 []) = false := by decide

/-- C9: the pickle entry of a record is positionally the tabular row with
the cells at positions 11, 12, 13 (comments, files changed, commit
hashes) split on `" | "`, both row-wise and across the whole loops. -/
theorem c9_blob_refines_row (records : List (PyStr × JValue)) (idx : Nat)
    (id : PyStr) (rd : RowData) :
    pickleRow idx id rd = spec_blob_of_row 0 (csvRow idx id rd) ∧
    (convert_to_pickle records).1
      = (csvLoop records).1.map (spec_blob_of_row 0) := by
  exact ⟨row_transform idx id rd, (loops_spec records 1).2.2.1⟩

/-- C10: a pickle entry whose comments / files / commit-hashes string is
empty holds `[""]` at the corresponding position, and a list-valued cell
of a pickle entry is never the empty list. -/
theorem c10_split_fields_nonempty (idx : Nat) (id : PyStr) (rd : RowData) :
    (rd.comments = [] →
      (pickleRow idx id rd).getD 11 (.str []) = Cell.strs [[]]) ∧
    (rd.files_changed = [] →
      (pickleRow idx id rd).getD 12 (.str []) = Cell.strs [[]]) ∧
    (rd.commit_hashes = [] →
      (pickleRow idx id rd).getD 13 (.str []) = Cell.strs [[]]) ∧
    (∀ j l, (pickleRow idx id rd).getD j (.str []) = Cell.strs l →
      0 < l.length) := by
  refine ⟨?_, ?_, ?_, ?_⟩
  · intro h
    simp only [pickleRow, h]
    rfl
  · intro h
    simp only [pickleRow, h]
    rfl
  · intro h
    simp only [pickleRow, h]
    rfl
  · intro j l h
    exact pickleRow_cells idx id rd l (getD_mem_strs (pickleRow idx id rd) j l h)

/-- C10 (witness): at a flat record whose joined strings are empty, the
comments position of the pickle entry is `[""]`, which is non-empty. -/
theorem c10_split_fields_nonempty_witness :
    (pickleRow 1 (pstr "1") rdX).getD 11 (Cell.str []) = Cell.strs [[]] ∧
    0 < ([[]] : List PyStr).length :=
  ⟨(c10_split_fields_nonempty 1 (pstr "1") rdX).1 rfl,
   (c10_split_fields_nonempty 1 (pstr "1") rdX).2.2.2 11 [[]]
     ((c10_split_fields_nonempty 1 (pstr "1") rdX).1 rfl)⟩
